import Mathlib

/-!
Shallow embedding of play.py: a command-line chess game in which a human
(White) plays against a model-driven opponent (Black).  The chess rules
engine (python-chess) and the model API client are external libraries; they
are modelled abstractly by the Engine interface below together with the
EngineContract predicate, which states the documented behaviour of the
library operations that play.py relies on.  The program itself — the
get_gpt4_move advisor, the play_chess game loop, the startup credential
check, and the final result classification — is translated faithfully from
src/play.py.  Interaction (terminal input and the model API response per
turn) is supplied as an explicit list of events.
-/

/-- Abstract interface of the external chess rules engine, with board type B
and move type M, exposing exactly the operations play.py calls: the initial
board, legal move enumeration, SAN rendering, SAN and UCI parsing (fallible,
an error models the raised ValueError), pushing a move, terminal-state test,
side to move (true models chess.WHITE), and the result code string. -/
structure Engine (B M : Type) where
  startBoard : B
  legal_moves : B → List M
  san : B → M → String
  parse_san : B → String → Except String M
  from_uci : String → Except String M
  push : B → M → B
  is_game_over : B → Bool
  turn : B → Bool
  result : B → String

/-- Documented behaviour of the rules-engine operations that play.py relies
on: parse_san returns only moves that are legal on the given board (it
raises on illegal or unparsable SAN), a non-terminal board has at least one
legal move, and pushing a move hands the turn to the other side. -/
structure EngineContract {B M : Type} (E : Engine B M) : Prop where
  parse_san_legal : ∀ b s m, E.parse_san b s = Except.ok m → m ∈ E.legal_moves b
  nonterminal_moves : ∀ b, E.is_game_over b = false → E.legal_moves b ≠ []
  turn_push : ∀ b m, E.turn (E.push b m) = !E.turn b

variable {B M : Type}

/-- Concatenation of a list of strings, in order. -/
def concatAll : List String → String
  | [] => ""
  | s :: rest => s ++ concatAll rest

/-- Transcript built from the move history by the loop at the top of
get_gpt4_move: a move at even index i contributes the move number prefix and
the notation, a move at odd index contributes the notation alone, each
followed by a space. -/
def buildMoveString (move_history : List String) : String :=
  move_history.enum.foldl
    (fun acc p =>
      if p.1 % 2 == 0 then acc ++ (toString (p.1 / 2 + 1) ++ ". " ++ p.2 ++ " ")
      else acc ++ (p.2 ++ " "))
    ""

/-- SAN renderings of all currently legal moves, in enumeration order
(legal_moves_san in get_gpt4_move). -/
def legal_moves_san (E : Engine B M) (board : B) : List String :=
  (E.legal_moves board).map (E.san board)

/-- Prompt string sent to the model: the transcript, plus the next move
number when it is the first player to move and the history is non-empty. -/
def buildPrompt (E : Engine B M) (board : B) (move_history : List String) : String :=
  let ms := buildMoveString move_history
  let ms2 :=
    if E.turn board && !move_history.isEmpty then
      ms ++ (toString (move_history.length / 2 + 1) ++ ". ")
    else ms
  "Let\x27s play chess. " ++ ms2

/-- The outbound model API request built by get_gpt4_move: model name,
prompt, and the structured function schema whose enum field restricts the
acceptable responses. -/
structure ChatRequest where
  model : String
  prompt : String
  toolName : String
  toolEnum : List String

/-- Request constructed by get_gpt4_move for the current board and history. -/
def buildRequest (E : Engine B M) (board : B) (move_history : List String) : ChatRequest :=
  { model := "gpt-4o"
    prompt := buildPrompt E board move_history
    toolName := "make_chess_move"
    toolEnum := legal_moves_san E board }

/-- Outcome of one model API call, as observed by get_gpt4_move: an
exception raised by the call (or while decoding the response JSON), a
response without a structured tool call, or a tool call whose arguments may
or may not contain the move key. -/
inductive ApiOutcome where
  | apiError (msg : String)
  | noToolCall
  | toolCall (chosenMove : Option String)

/-- Fallback move expression used by get_gpt4_move on every failure path:
the first element of the legal move enumeration; on an empty enumeration the
indexing itself raises. -/
def fallbackMove (E : Engine B M) (board : B) : Except String M :=
  match (E.legal_moves board).head? with
  | some m => Except.ok m
  | none => Except.error "IndexError: list index out of range"

/-- Translation of get_gpt4_move: build the request, observe the API
outcome for it, and either translate the selected notation against the
current board or fall back to the first legal move.  Every exception inside
the call — including a parse failure of the selected notation — is caught
and answered with the fallback. -/
def get_gpt4_move (E : Engine B M) (board : B) (move_history : List String)
    (oracle : ChatRequest → ApiOutcome) : Except String M :=
  let req := buildRequest E board move_history
  match oracle req with
  | ApiOutcome.apiError _ => fallbackMove E board
  | ApiOutcome.noToolCall => fallbackMove E board
  | ApiOutcome.toolCall none => fallbackMove E board
  | ApiOutcome.toolCall (some s) =>
    match E.parse_san board s with
    | Except.ok m => Except.ok m
    | Except.error _ => fallbackMove E board

/-- State owned by the game loop: the authoritative board and the move
history in SAN. -/
structure GameState (B : Type) where
  board : B
  move_history : List String

/-- Application of one chosen move, exactly as both branches of the loop do
it: record the SAN rendering computed on the board before the push, push the
move, append the rendering to the history. -/
def applyMove (E : Engine B M) (st : GameState B) (move : M) : GameState B :=
  { board := E.push st.board move
    move_history := st.move_history ++ [E.san st.board move] }

/-- Message printed when UCI input parses but is not legal. -/
def illegalMoveMsg : String := "Illegal move! Try again."

/-- Message printed when the input parses under neither notation. -/
def invalidFormatMsg : String :=
  "Invalid move format! Please use standard notation (e.g. \x27e4\x27) or UCI notation (e.g. \x27e2e4\x27)."

/-- Translation of the human branch of the loop body: try SAN first; on a
SAN ValueError try UCI, rejecting a parsed-but-illegal move; on a UCI
ValueError report a format error.  Returns the updated state together with
the error messages printed (empty exactly when a move was applied). -/
def stepHuman [DecidableEq M] (E : Engine B M) (st : GameState B) (moveInput : String) :
    GameState B × List String :=
  match E.parse_san st.board moveInput with
  | Except.ok move => (applyMove E st move, [])
  | Except.error _ =>
    match E.from_uci moveInput with
    | Except.ok move =>
      if move ∈ E.legal_moves st.board then (applyMove E st move, [])
      else (st, [illegalMoveMsg])
    | Except.error _ => (st, [invalidFormatMsg])

/-- Translation of the model branch of the loop body: obtain the move from
get_gpt4_move and apply it; an uncaught exception propagates. -/
def stepModel (E : Engine B M) (st : GameState B) (oracle : ChatRequest → ApiOutcome) :
    Except String (GameState B) :=
  match get_gpt4_move E st.board st.move_history oracle with
  | Except.ok move => Except.ok (applyMove E st move)
  | Except.error e => Except.error e

/-- One interaction event: a line of human input, or the behaviour of the
model API on the request issued that turn. -/
inductive GameEvent where
  | humanInput (s : String)
  | modelResponse (oracle : ChatRequest → ApiOutcome)

/-- The game loop of play_chess: while the board is not in a terminal state,
dispatch on the side to move — the human branch consumes an input line, the
model branch consumes an API outcome.  An event of the wrong kind for the
side to move is skipped.  The loop stops when the board is terminal or the
events are exhausted; an uncaught exception ends the run as an error. -/
def run [DecidableEq M] (E : Engine B M) : GameState B → List GameEvent → Except String (GameState B)
  | st, [] => Except.ok st
  | st, ev :: evs =>
    if E.is_game_over st.board then Except.ok st
    else
      match ev with
      | GameEvent.humanInput s =>
        if E.turn st.board then run E (stepHuman E st s).1 evs
        else run E st evs
      | GameEvent.modelResponse oracle =>
        if E.turn st.board then run E st evs
        else
          match stepModel E st oracle with
          | Except.ok st2 => run E st2 evs
          | Except.error e => Except.error e

/-- Entry point play_chess: start from the initial board with an empty
history and run the loop over the supplied interaction events. -/
def play_chess [DecidableEq M] (E : Engine B M) (events : List GameEvent) :
    Except String (GameState B) :=
  run E { board := E.startBoard, move_history := [] } events

/-- Classification of the result code printed after the loop: the code 1-0
is a win for the human (White), 0-1 a win for the model (Black), anything
else a draw. -/
def gameOverMessage (result : String) : String :=
  if result = "1-0" then "You (White) won!"
  else if result = "0-1" then "GPT-4o (Black) won!"
  else "It\x27s a draw!"

/-- Report printed at game end: the classification of the result code the
rules engine computes for the final board. -/
def finalReport (E : Engine B M) (board : B) : String :=
  gameOverMessage (E.result board)

/-- Message of the ValueError raised at module initialisation when the
credential is absent. -/
def startupErrorMsg : String :=
  "OPENAI_API_KEY environment variable is not set. Please set it before running the program."

/-- Module-level credential check: os.environ.get may return no value, and
a missing or empty value raises a ValueError before anything else runs. -/
def moduleInit (envApiKey : Option String) : Except String String :=
  match envApiKey with
  | none => Except.error startupErrorMsg
  | some k => if k = "" then Except.error startupErrorMsg else Except.ok k

/-- Observable outcome of one program run: aborted at initialisation with
an uncaught configuration error, or the game loop ran to an outcome. -/
inductive ProgramResult (B : Type) where
  | configError (msg : String)
  | finished (outcome : Except String (GameState B))

/-- Whole-program behaviour: the module body performs the credential check
before the main guard, so a failing check aborts the process before
play_chess is ever entered. -/
def program [DecidableEq M] (E : Engine B M) (envApiKey : Option String)
    (events : List GameEvent) : ProgramResult B :=
  match moduleInit envApiKey with
  | Except.error msg => ProgramResult.configError msg
  | Except.ok _ => ProgramResult.finished (play_chess E events)

/-- Trace of the moves applied during a run: each recorded move is a member
of the legal move enumeration of the board it is pushed to, and is paired
with its SAN rendering computed on that same (pre-push) board. -/
inductive MoveTrace (E : Engine B M) : B → List (M × String) → B → Prop where
  | nil (b : B) : MoveTrace E b [] b
  | cons (b : B) (m : M) (tr : List (M × String)) (b2 : B) :
      m ∈ E.legal_moves b → MoveTrace E (E.push b m) tr b2 →
      MoveTrace E b ((m, E.san b m) :: tr) b2

/-- Failure of one model turn as seen by get_gpt4_move: the call raised, or
the response carried no structured tool call or no move key, or the selected
notation fails to translate against the current board. -/
def modelCallFails (E : Engine B M) (board : B) (move_history : List String)
    (oracle : ChatRequest → ApiOutcome) : Prop :=
  match oracle (buildRequest E board move_history) with
  | ApiOutcome.toolCall (some s) => ∃ e, E.parse_san board s = Except.error e
  | _ => True

/-- Human input that yields no legal move: SAN parsing fails, and UCI
parsing either fails or produces a move outside the legal set. -/
def humanInputRejected (E : Engine B M) (board : B) (s : String) : Prop :=
  (∃ e, E.parse_san board s = Except.error e) ∧
  (∀ m, E.from_uci s = Except.ok m → m ∉ E.legal_moves board)

/-- Small concrete rules engine used to exercise the theorems on closed
inputs: the board is a ply counter, a game lasts four plies, two moves are
always available, the SAN text a parses to move 0 and the UCI text u to
move 1. -/
def toyEngine : Engine Nat Nat where
  startBoard := 0
  legal_moves b := if b < 4 then [0, 1] else []
  san _ m := if m == 0 then "sa" else "sb"
  parse_san b s := if b < 4 ∧ s = "a" then Except.ok 0 else Except.error "bad san"
  from_uci s := if s = "u" then Except.ok 1 else Except.error "bad uci"
  push b _ := b + 1
  is_game_over b := decide (4 ≤ b)
  turn b := b % 2 == 0
  result b := if b == 1 then "1-0" else if b == 2 then "0-1" else "1/2-1/2"

theorem concatAll_nil : concatAll [] = "" := rfl

theorem concatAll_cons (s : String) (l : List String) :
    concatAll (s :: l) = s ++ concatAll l := rfl

theorem foldl_append_concatAll (f : Nat × String → String) :
    ∀ (l : List (Nat × String)) (acc0 : String),
    l.foldl (fun acc p => acc ++ f p) acc0 = acc0 ++ concatAll (l.map f) := by
  intro l
  induction l with
  | nil => intro acc0; simp [concatAll, String.append_empty]
  | cons a l ih =>
    intro acc0
    simp only [List.foldl_cons, List.map_cons, concatAll_cons, ih, String.append_assoc]

theorem fallbackMove_spec (E : Engine B M) (board : B)
    (h : E.legal_moves board ≠ []) :
    ∃ m, (E.legal_moves board).head? = some m ∧ fallbackMove E board = Except.ok m ∧
      m ∈ E.legal_moves board := by
  cases hl : E.legal_moves board with
  | nil => exact absurd hl h
  | cons a l =>
    refine ⟨a, rfl, ?_, List.mem_cons_self a l⟩
    simp [fallbackMove, hl]

theorem get_gpt4_move_spec (E : Engine B M) (hC : EngineContract E) (board : B)
    (move_history : List String) (oracle : ChatRequest → ApiOutcome)
    (h : E.is_game_over board = false) :
    ∃ m, get_gpt4_move E board move_history oracle = Except.ok m ∧ m ∈ E.legal_moves board := by
  obtain ⟨m0, _, hfb, hmem⟩ := fallbackMove_spec E board (hC.nonterminal_moves board h)
  unfold get_gpt4_move
  cases horc : oracle (buildRequest E board move_history) with
  | apiError msg => exact ⟨m0, by simp [horc, hfb], hmem⟩
  | noToolCall => exact ⟨m0, by simp [horc, hfb], hmem⟩
  | toolCall chosen =>
    cases chosen with
    | none => exact ⟨m0, by simp [horc, hfb], hmem⟩
    | some s =>
      cases hp : E.parse_san board s with
      | ok m => exact ⟨m, by simp [horc, hp], hC.parse_san_legal board s m hp⟩
      | error e => exact ⟨m0, by simp [horc, hp, hfb], hmem⟩

theorem get_gpt4_move_fallback (E : Engine B M) (board : B)
    (move_history : List String) (oracle : ChatRequest → ApiOutcome)
    (hf : modelCallFails E board move_history oracle) :
    get_gpt4_move E board move_history oracle = fallbackMove E board := by
  unfold get_gpt4_move
  unfold modelCallFails at hf
  cases horc : oracle (buildRequest E board move_history) with
  | apiError msg => simp [horc]
  | noToolCall => simp [horc]
  | toolCall chosen =>
    cases chosen with
    | none => simp [horc]
    | some s =>
      rw [horc] at hf
      obtain ⟨e, he⟩ := hf
      simp [horc, he]

/-- C6: for every move history, the transcript built by get_gpt4_move is the
concatenation, over the history with indices, of the move-number prefix plus
notation plus space for each even index, and the notation plus space for
each odd index. -/
theorem claim_C6_transcript (move_history : List String) :
    buildMoveString move_history =
      concatAll (move_history.enum.map
        (fun p =>
          if p.1 % 2 == 0 then toString (p.1 / 2 + 1) ++ ". " ++ p.2 ++ " "
          else p.2 ++ " ")) := by
  have hbody :
      (fun (acc : String) (p : Nat × String) =>
        if p.1 % 2 == 0 then acc ++ (toString (p.1 / 2 + 1) ++ ". " ++ p.2 ++ " ")
        else acc ++ (p.2 ++ " ")) =
      (fun (acc : String) (p : Nat × String) =>
        acc ++ (if p.1 % 2 == 0 then toString (p.1 / 2 + 1) ++ ". " ++ p.2 ++ " "
                else p.2 ++ " ")) := by
    funext acc p
    cases h : p.1 % 2 == 0 <;> simp [h]
  rw [buildMoveString, hbody, foldl_append_concatAll, String.empty_append]

/-- C8: the enum of the structured function schema passed with the model
call is exactly the list of SAN renderings of the currently legal moves, so
a string is an acceptable response precisely when it renders some legal
move. -/
theorem claim_C8_schema_enum (E : Engine B M) (board : B) (move_history : List String) :
    (buildRequest E board move_history).toolEnum = (E.legal_moves board).map (E.san board) ∧
    ∀ s, s ∈ (buildRequest E board move_history).toolEnum ↔
      ∃ m, m ∈ E.legal_moves board ∧ E.san board m = s := by
  constructor
  · rfl
  · intro s
    simp [buildRequest, legal_moves_san, List.mem_map]

/-- C9: with the credential absent from the environment, the program aborts
at module initialisation with the configuration error — before the game loop
ever starts, whatever interaction events would have followed — and the error
message carries the remediation instruction. -/
theorem claim_C9_missing_credential [DecidableEq M] (E : Engine B M)
    (events : List GameEvent) :
    program E none events = ProgramResult.configError startupErrorMsg ∧
    (∃ p q, startupErrorMsg = p ++ "Please set it before running the program." ++ q) := by
  constructor
  · rfl
  · exact ⟨"OPENAI_API_KEY environment variable is not set. ", "", rfl⟩

/-- C4: the terminal report classifies the result code of the final board:
1-0 as a win for the human (White), 0-1 as a win for the model (Black), and
every other code as a draw. -/
theorem claim_C4_result_classification (E : Engine B M) (board : B) :
    (E.result board = "1-0" → finalReport E board = "You (White) won!") ∧
    (E.result board = "0-1" → finalReport E board = "GPT-4o (Black) won!") ∧
    (E.result board ≠ "1-0" → E.result board ≠ "0-1" →
      finalReport E board = "It\x27s a draw!") := by
  refine ⟨?_, ?_, ?_⟩
  · intro h; simp [finalReport, gameOverMessage, h]
  · intro h; simp [finalReport, gameOverMessage, h]
  · intro h1 h2; simp [finalReport, gameOverMessage, h1, h2]

/-- Witness for C4 on the toy engine: the board after one ply carries the
code 1-0 and is reported as the human win; the initial board carries the
code 1/2-1/2 and is reported as a draw. -/
theorem claim_C4_result_classification_witness :
    finalReport toyEngine 1 = "You (White) won!" ∧
    finalReport toyEngine 0 = "It\x27s a draw!" :=
  ⟨(claim_C4_result_classification toyEngine 1).1 rfl,
   (claim_C4_result_classification toyEngine 0).2.2 (by decide) (by decide)⟩

theorem stepHuman_cases [DecidableEq M] (E : Engine B M) (hC : EngineContract E)
    (st : GameState B) (s : String) :
    (stepHuman E st s).1 = st ∨
    ∃ m, m ∈ E.legal_moves st.board ∧ stepHuman E st s = (applyMove E st m, []) := by
  cases hs : E.parse_san st.board s with
  | ok m =>
    exact Or.inr ⟨m, hC.parse_san_legal st.board s m hs, by simp [stepHuman, hs]⟩
  | error e =>
    cases hu : E.from_uci s with
    | ok m =>
      by_cases hm : m ∈ E.legal_moves st.board
      · exact Or.inr ⟨m, hm, by simp [stepHuman, hs, hu, hm]⟩
      · exact Or.inl (by simp [stepHuman, hs, hu, hm])
    | error e2 => exact Or.inl (by simp [stepHuman, hs, hu])

theorem MoveTrace.board_foldl (E : Engine B M) (b : B) (tr : List (M × String)) (b2 : B)
    (h : MoveTrace E b tr b2) : b2 = (tr.map Prod.fst).foldl E.push b := by
  induction h with
  | nil b => rfl
  | cons b m tr b2 hm htr ih => simpa using ih

theorem run_trace [DecidableEq M] (E : Engine B M) (hC : EngineContract E) :
    ∀ (evs : List GameEvent) (st st2 : GameState B),
    run E st evs = Except.ok st2 →
    ∃ tr : List (M × String), MoveTrace E st.board tr st2.board ∧
      st2.move_history = st.move_history ++ tr.map Prod.snd ∧
      tr.length ≤ evs.length := by
  intro evs
  induction evs with
  | nil =>
    intro st st2 h
    have hst : st = st2 := by
      have := h
      simp only [run] at this
      exact Except.ok.inj this
    subst hst
    exact ⟨[], MoveTrace.nil st.board, by simp, by simp⟩
  | cons ev evs ih =>
    intro st st2 h
    by_cases hover : E.is_game_over st.board = true
    · have hst : st = st2 := by
        simp only [run, hover, if_true] at h
        exact Except.ok.inj h
      subst hst
      exact ⟨[], MoveTrace.nil st.board, by simp, by simp⟩
    · replace hover : E.is_game_over st.board = false := by
        cases hov2 : E.is_game_over st.board with
        | true => exact absurd hov2 hover
        | false => rfl
      cases ev with
      | humanInput s =>
        simp only [run, hover, Bool.false_eq_true, if_false] at h
        cases hturn : E.turn st.board with
        | true =>
          rw [hturn, if_pos rfl] at h
          rcases stepHuman_cases E hC st s with heq | ⟨m, hm, heq⟩
          · rw [heq] at h
            obtain ⟨tr, htr, hhist, hlen⟩ := ih _ _ h
            exact ⟨tr, htr, hhist, Nat.le_succ_of_le hlen⟩
          · rw [heq] at h
            obtain ⟨tr, htr, hhist, hlen⟩ := ih _ _ h
            refine ⟨(m, E.san st.board m) :: tr, ?_, ?_, ?_⟩
            · exact MoveTrace.cons st.board m tr st2.board hm htr
            · simp only [applyMove] at hhist
              simpa [List.append_assoc] using hhist
            · simpa using Nat.succ_le_succ hlen
        | false =>
          rw [hturn] at h
          simp only [Bool.false_eq_true, if_false] at h
          obtain ⟨tr, htr, hhist, hlen⟩ := ih _ _ h
          exact ⟨tr, htr, hhist, Nat.le_succ_of_le hlen⟩
      | modelResponse oracle =>
        simp only [run, hover, Bool.false_eq_true, if_false] at h
        cases hturn : E.turn st.board with
        | true =>
          rw [hturn, if_pos rfl] at h
          obtain ⟨tr, htr, hhist, hlen⟩ := ih _ _ h
          exact ⟨tr, htr, hhist, Nat.le_succ_of_le hlen⟩
        | false =>
          rw [hturn] at h
          simp only [Bool.false_eq_true, if_false] at h
          obtain ⟨m, hg, hm⟩ := get_gpt4_move_spec E hC st.board st.move_history oracle hover
          have hsm : stepModel E st oracle = Except.ok (applyMove E st m) := by
            simp [stepModel, hg]
          rw [hsm] at h
          obtain ⟨tr, htr, hhist, hlen⟩ := ih _ _ h
          refine ⟨(m, E.san st.board m) :: tr, ?_, ?_, ?_⟩
          · exact MoveTrace.cons st.board m tr st2.board hm htr
          · simp only [applyMove] at hhist
            simpa [List.append_assoc] using hhist
          · simpa using Nat.succ_le_succ hlen

theorem toyContract : EngineContract toyEngine := by
  refine ⟨?_, ?_, ?_⟩
  · intro b s m h
    by_cases hb : b < 4 ∧ s = "a"
    · have hm : m = 0 := by
        simp [toyEngine, hb] at h
        exact h.symm
      subst hm
      simp [toyEngine, hb.1]
    · simp [toyEngine, hb] at h
  · intro b h
    have hb : b < 4 := by
      simp [toyEngine] at h
      omega
    simp [toyEngine, hb]
  · intro b m
    show ((b + 1) % 2 == 0) = !(b % 2 == 0)
    rcases Nat.mod_two_eq_zero_or_one b with h | h <;>
      simp [Nat.add_mod, h]

/-- C1: on a non-terminal board, get_gpt4_move always returns (never
raises) a member of the current legal move set, and on every failure — an
API exception, a response without a structured tool call or move key, or a
selected notation that fails to translate — it returns the first move of
the legal move enumeration. -/
theorem claim_C1_model_fallback (E : Engine B M) (hC : EngineContract E) (board : B)
    (move_history : List String) (h : E.is_game_over board = false) :
    (∀ oracle, ∃ m, get_gpt4_move E board move_history oracle = Except.ok m ∧
      m ∈ E.legal_moves board) ∧
    (∀ oracle, modelCallFails E board move_history oracle →
      ∃ m, (E.legal_moves board).head? = some m ∧
        get_gpt4_move E board move_history oracle = Except.ok m) := by
  constructor
  · intro oracle
    exact get_gpt4_move_spec E hC board move_history oracle h
  · intro oracle hf
    obtain ⟨m0, hh, hfb, _⟩ := fallbackMove_spec E board (hC.nonterminal_moves board h)
    refine ⟨m0, hh, ?_⟩
    rw [get_gpt4_move_fallback E board move_history oracle hf, hfb]

/-- Witness for C1 on the toy engine: on the initial board, a response with
no tool call makes get_gpt4_move answer the first enumerated legal move. -/
theorem claim_C1_model_fallback_witness :
    ∃ m, (toyEngine.legal_moves 0).head? = some m ∧
      get_gpt4_move toyEngine 0 [] (fun _ => ApiOutcome.noToolCall) = Except.ok m :=
  (claim_C1_model_fallback toyEngine toyContract 0 [] rfl).2
    (fun _ => ApiOutcome.noToolCall) True.intro

/-- C2: the human input bridge tries SAN first — a SAN success decides the
outcome — and only on SAN failure tries UCI; a UCI-parsed move outside the
legal set is rejected with the state unchanged; and whenever the board
changes at all, the change is the application of a legal move. -/
theorem claim_C2_notation_bridge [DecidableEq M] (E : Engine B M) (hC : EngineContract E)
    (st : GameState B) (s : String) :
    (∀ m, E.parse_san st.board s = Except.ok m →
      stepHuman E st s = (applyMove E st m, [])) ∧
    (∀ e m, E.parse_san st.board s = Except.error e → E.from_uci s = Except.ok m →
      m ∈ E.legal_moves st.board → stepHuman E st s = (applyMove E st m, [])) ∧
    (∀ e m, E.parse_san st.board s = Except.error e → E.from_uci s = Except.ok m →
      m ∉ E.legal_moves st.board → stepHuman E st s = (st, [illegalMoveMsg])) ∧
    ((stepHuman E st s).1 ≠ st →
      ∃ m, m ∈ E.legal_moves st.board ∧ (stepHuman E st s).1 = applyMove E st m) := by
  refine ⟨?_, ?_, ?_, ?_⟩
  · intro m hm
    simp [stepHuman, hm]
  · intro e m he hu hmem
    simp [stepHuman, he, hu, hmem]
  · intro e m he hu hmem
    simp [stepHuman, he, hu, hmem]
  · intro hne
    rcases stepHuman_cases E hC st s with heq | ⟨m, hm, heq⟩
    · exact absurd heq hne
    · exact ⟨m, hm, by rw [heq]⟩

/-- Witness for C2 on the toy engine: on the initial board the SAN text a
parses and is applied directly. -/
theorem claim_C2_notation_bridge_witness :
    stepHuman toyEngine { board := 0, move_history := [] } "a" =
      (applyMove toyEngine { board := 0, move_history := [] } 0, []) :=
  (claim_C2_notation_bridge toyEngine toyContract { board := 0, move_history := [] } "a").1
    0 rfl

/-- C3: a completed run mutates the board only through pushes of moves each
legal on the board it is pushed to — at most one per consumed event — and
the final board is exactly the cumulative fold of those pushes over the
initial board. -/
theorem claim_C3_board_mutation [DecidableEq M] (E : Engine B M) (hC : EngineContract E)
    (st st2 : GameState B) (evs : List GameEvent) (h : run E st evs = Except.ok st2) :
    ∃ tr : List (M × String), MoveTrace E st.board tr st2.board ∧
      st2.board = (tr.map Prod.fst).foldl E.push st.board ∧
      tr.length ≤ evs.length := by
  obtain ⟨tr, htr, _, hlen⟩ := run_trace E hC evs st st2 h
  exact ⟨tr, htr, MoveTrace.board_foldl E st.board tr st2.board htr, hlen⟩

/-- Witness for C3 on the toy engine: one human move from the initial
state. -/
theorem claim_C3_board_mutation_witness :
    ∃ tr : List (Nat × String), MoveTrace toyEngine 0 tr 1 ∧
      (1 : Nat) = (tr.map Prod.fst).foldl toyEngine.push 0 ∧
      tr.length ≤ 1 :=
  claim_C3_board_mutation toyEngine toyContract
    { board := 0, move_history := [] } { board := 1, move_history := ["sa"] }
    [GameEvent.humanInput "a"] rfl

/-- C5: human input that yields no legal move leaves the state (board and
history) unchanged, produces exactly one of the two error messages, and the
loop simply goes on to the next event — the failed attempt consumes no
progress and nothing terminates. -/
theorem claim_C5_reprompt [DecidableEq M] (E : Engine B M) (st : GameState B) (s : String)
    (hrej : humanInputRejected E st.board s) :
    (stepHuman E st s).1 = st ∧
    (stepHuman E st s = (st, [illegalMoveMsg]) ∨
      stepHuman E st s = (st, [invalidFormatMsg])) ∧
    (∀ evs, E.is_game_over st.board = false →
      run E st (GameEvent.humanInput s :: evs) = run E st evs) := by
  obtain ⟨⟨e, he⟩, hu⟩ := hrej
  have hstep : stepHuman E st s = (st, [illegalMoveMsg]) ∨
      stepHuman E st s = (st, [invalidFormatMsg]) := by
    cases hufu : E.from_uci s with
    | ok m =>
      have hnm := hu m hufu
      exact Or.inl (by simp [stepHuman, he, hufu, hnm])
    | error e2 => exact Or.inr (by simp [stepHuman, he, hufu])
  have hfst : (stepHuman E st s).1 = st := by
    rcases hstep with h1 | h1 <;> rw [h1]
  refine ⟨hfst, hstep, ?_⟩
  intro evs hover
  cases hturn : E.turn st.board with
  | true =>
    simp [run, hover, hturn, hfst]
  | false =>
    simp only [run, hover, Bool.false_eq_true, if_false, hturn]

/-- Witness for C5 on the toy engine: the text zz parses under neither
notation; the state is unchanged and the loop moves on. -/
theorem claim_C5_reprompt_witness :
    (stepHuman toyEngine { board := 0, move_history := [] } "zz").1 =
      { board := 0, move_history := [] } ∧
    run toyEngine { board := 0, move_history := [] } [GameEvent.humanInput "zz"] =
      run toyEngine { board := 0, move_history := [] } [] := by
  have hrej : humanInputRejected toyEngine 0 "zz" := by
    constructor
    · exact ⟨"bad san", rfl⟩
    · intro m hm
      exact absurd hm (by simp [toyEngine])
  have h := claim_C5_reprompt toyEngine { board := 0, move_history := [] } "zz" hrej
  exact ⟨h.1, h.2.2 [] rfl⟩

/-- C7: the move history of a completed run is append-only: it extends the
starting history by exactly the SAN renderings of the applied moves, each
computed on the board the move was pushed to, so its length grows by exactly
the number of applied moves. -/
theorem claim_C7_history_append_only [DecidableEq M] (E : Engine B M) (hC : EngineContract E)
    (st st2 : GameState B) (evs : List GameEvent) (h : run E st evs = Except.ok st2) :
    ∃ tr : List (M × String), MoveTrace E st.board tr st2.board ∧
      st2.move_history = st.move_history ++ tr.map Prod.snd ∧
      st2.move_history.length = st.move_history.length + tr.length := by
  obtain ⟨tr, htr, hhist, _⟩ := run_trace E hC evs st st2 h
  refine ⟨tr, htr, hhist, ?_⟩
  rw [hhist]
  simp

/-- Witness for C7 on the toy engine: after one applied human move the
history is exactly one SAN string longer. -/
theorem claim_C7_history_append_only_witness :
    ∃ tr : List (Nat × String), MoveTrace toyEngine 0 tr 1 ∧
      (["sa"] : List String) = [] ++ tr.map Prod.snd ∧
      (["sa"] : List String).length = ([] : List String).length + tr.length :=
  claim_C7_history_append_only toyEngine toyContract
    { board := 0, move_history := [] } { board := 1, move_history := ["sa"] }
    [GameEvent.humanInput "a"] rfl

/-- C10: on a non-terminal board the loop dispatches by the side to move —
the human branch runs exactly when the side to move is the first player
(White), the model branch exactly when it is the second player (Black) — a
model turn always produces a state with the first player to move, a human
turn either re-prompts or hands the move to the second player, and every
applied move flips the side to move. -/
theorem claim_C10_turn_alternation [DecidableEq M] (E : Engine B M) (hC : EngineContract E)
    (st : GameState B) (h : E.is_game_over st.board = false) :
    (∀ s evs, E.turn st.board = true →
      run E st (GameEvent.humanInput s :: evs) = run E (stepHuman E st s).1 evs) ∧
    (∀ oracle evs, E.turn st.board = false →
      ∃ st2, stepModel E st oracle = Except.ok st2 ∧
        run E st (GameEvent.modelResponse oracle :: evs) = run E st2 evs ∧
        E.turn st2.board = true) ∧
    (∀ s, E.turn st.board = true →
      (stepHuman E st s).1 = st ∨ E.turn (stepHuman E st s).1.board = false) ∧
    (∀ m, E.turn (E.push st.board m) = !E.turn st.board) := by
  refine ⟨?_, ?_, ?_, ?_⟩
  · intro s evs hturn
    simp [run, h, hturn]
  · intro oracle evs hturn
    obtain ⟨m, hg, hm⟩ := get_gpt4_move_spec E hC st.board st.move_history oracle h
    refine ⟨applyMove E st m, by simp [stepModel, hg], ?_, ?_⟩
    · simp only [run, h, Bool.false_eq_true, if_false, hturn, stepModel, hg]
    · have := hC.turn_push st.board m
      simp only [applyMove, this, hturn, Bool.not_false]
  · intro s hturn
    rcases stepHuman_cases E hC st s with heq | ⟨m, hm, heq⟩
    · exact Or.inl heq
    · right
      rw [heq]
      simp only [applyMove, hC.turn_push st.board m, hturn, Bool.not_true]
  · intro m
    exact hC.turn_push st.board m

/-- Witness for C10 on the toy engine: the initial board has the first
player to move and the loop consumes the human event; after the human move
the model event is consumed and control returns to the first player. -/
theorem claim_C10_turn_alternation_witness :
    run toyEngine { board := 0, move_history := [] } [GameEvent.humanInput "a"] =
      run toyEngine (stepHuman toyEngine { board := 0, move_history := [] } "a").1 [] ∧
    ∃ st2, stepModel toyEngine { board := 1, move_history := ["sa"] }
        (fun _ => ApiOutcome.noToolCall) = Except.ok st2 ∧
      run toyEngine { board := 1, move_history := ["sa"] }
          [GameEvent.modelResponse (fun _ => ApiOutcome.noToolCall)] = run toyEngine st2 [] ∧
      toyEngine.turn st2.board = true := by
  constructor
  · exact (claim_C10_turn_alternation toyEngine toyContract
      { board := 0, move_history := [] } rfl).1 "a" [] rfl
  · exact (claim_C10_turn_alternation toyEngine toyContract
      { board := 1, move_history := ["sa"] } rfl).2.1 (fun _ => ApiOutcome.noToolCall) [] rfl
